import Mathlib

/-!
Shallow embedding of `src/python-service/main.py` (the 1mrc event-ingestion
service): the sharded distinct-user store, the two counter cells, the
hand-rolled request decoder and the per-connection handler, together with
theorems checking the design document against this code.

Modelling conventions:
* byte buffers are `List Char` (the service only ever compares ASCII bytes);
* Python `float` arithmetic on the running sum is idealised as exact `ℚ`
  arithmetic; the *width* of the counter cell (`multiprocessing.Value("i")`,
  a C signed 32-bit int that wraps silently on overflow, verified against
  CPython's ctypes) is modelled exactly by `int32wrap`;
* `orjson.loads` is modelled by a small executable JSON parser over the
  fragment the service exchanges (string escape sequences and the
  no-leading-zero rule for numbers are not modelled);
* CPython's per-process string hash is an unspecified fixed function; the
  stand-in `pyHashString` below is deterministic, which is the only property
  the code relies on.
-/

/-- JSON values as produced by `orjson.loads` (Python `None`/`bool`/
number/`str`/`list`/`dict`). Numbers are idealised as rationals; lists and
dicts are encoded as cons-chains inside the inductive (`arrCons`/`objCons`)
so that the type is a plain, decidably-equal inductive. -/
inductive Json where
  | null : Json
  | bool (b : Bool) : Json
  | num (q : ℚ) : Json
  | str (s : String) : Json
  | arrNil : Json
  | arrCons (hd tl : Json) : Json
  | objNil : Json
  | objCons (k : String) (v tl : Json) : Json
deriving DecidableEq

/-- Is the decoded value a Python `dict` (so that `.get` exists)? -/
def Json.isDict : Json → Bool
  | .objNil => true
  | .objCons _ _ _ => true
  | _ => false

/-- Python `dict` built from decoded key/value pairs: with duplicate keys
the LAST occurrence wins, so lookup prefers the deepest matching entry. -/
def lookupLast (k : String) : Json → Option Json
  | .objCons k' v tl =>
    match lookupLast k tl with
    | some r => some r
    | none => if k' = k then some v else none
  | _ => none

/-- `NUM_SHARDS = 1024` from the source. -/
def NUM_SHARDS : Nat := 1024

/-- Stand-in for CPython's per-process string hash: any fixed deterministic
function; the code relies only on determinism within one process run. -/
def pyHashString (s : String) : Int :=
  s.data.foldl (fun a c => a * 31 + (c.toNat : Int)) 0

/-- Python `hash` on decoded JSON values: `None`, booleans, numbers and
strings are hashable; `list`/`dict` raise `TypeError` (modelled as `none`).
`hash(False) = 0` and `hash(True) = 1` as in CPython; the numeric and string
branches are deterministic stand-ins. -/
def pyHashJson : Json → Option Int
  | .null => some 271828
  | .bool b => some (if b then 1 else 0)
  | .num q => some (q.num * 65599 + (q.den : Int))
  | .str s => some (pyHashString s)
  | .arrNil => none
  | .arrCons _ _ => none
  | .objNil => none
  | .objCons _ _ _ => none

/-- `shard_index(user_id) = hash(user_id) % NUM_SHARDS` (Python `%` on a
positive modulus yields a value in `[0, NUM_SHARDS)`); `none` when `hash`
raises on an unhashable value. -/
def shard_index (u : Json) : Option (Fin NUM_SHARDS) :=
  (pyHashJson u).map fun h =>
    ⟨(h % (NUM_SHARDS : Int)).toNat, by
      have h1 : (0 : Int) ≤ h % (NUM_SHARDS : Int) :=
        Int.emod_nonneg h (by norm_num [NUM_SHARDS])
      have h2 : h % (NUM_SHARDS : Int) < (NUM_SHARDS : Int) :=
        Int.emod_lt_of_pos h (by norm_num [NUM_SHARDS])
      omega⟩

/-- `add_unique_user`: insert the identifier into its shard's member set
(under that shard's lock); `none` when `shard_index` raises. -/
def add_unique_user (u : Json) (sh : Fin NUM_SHARDS → Finset Json) :
    Option (Fin NUM_SHARDS → Finset Json) :=
  (shard_index u).map fun i => Function.update sh i (insert u (sh i))

/-- `unique_count()`: sum of member-set sizes over all shards. -/
def unique_count (sh : Fin NUM_SHARDS → Finset Json) : Nat :=
  ∑ i : Fin NUM_SHARDS, (sh i).card

/-- The C signed-32-bit store semantics of the `Value("i")` cell: ctypes
silently wraps an out-of-range Python int into `[-2^31, 2^31)`. -/
def int32wrap (x : Int) : Int := (x + 2 ^ 31) % 2 ^ 32 - 2 ^ 31

/-- The process-wide shared state: the two counter cells and the shard
array. `req_sum` is idealised as an exact rational (the cell is in fact a
32-bit C float, see the design notes in the theorems below). -/
structure AggState where
  req_total : Int
  req_sum : ℚ
  shards : Fin NUM_SHARDS → Finset Json

/-- State at service start: `Value("i", 0)`, `Value("f", 0)`, empty shards. -/
def initState : AggState := ⟨0, 0, fun _ => ∅⟩

/-- Index of the first occurrence of `sep` in `xs` (leftmost match, as in
Python's substring search). -/
def firstOccIdx (sep : List Char) : List Char → Option Nat
  | [] => if sep = [] then some 0 else none
  | x :: xs =>
    if sep.isPrefixOf (x :: xs) then some 0
    else (firstOccIdx sep xs).map (· + 1)

/-- Python `a, b = xs.split(sep)`: succeeds exactly when the non-overlapping
left-to-right split yields two parts (one occurrence of `sep`), returning
the part before and the part after; otherwise `ValueError` (`none`). -/
def splitTwo (sep xs : List Char) : Option (List Char × List Char) :=
  match firstOccIdx sep xs with
  | none => none
  | some i =>
    let rest := xs.drop (i + sep.length)
    match firstOccIdx sep rest with
    | none => some (xs.take i, rest)
    | some _ => none

/-- Number of non-overlapping left-to-right occurrences of `sep` in `xs`
(Python `xs.count(sep)`), for non-empty `sep`. -/
def countOcc (sep xs : List Char) : Nat :=
  if hsep : sep = [] then 0
  else
    match h : firstOccIdx sep xs with
    | none => 0
    | some i => 1 + countOcc sep (xs.drop (i + sep.length))
termination_by xs.length
decreasing_by
  have hx : xs ≠ [] := by
    intro hxe
    subst hxe
    simp [firstOccIdx, hsep] at h
  have hlen : 0 < xs.length := List.length_pos.mpr hx
  have hslen : 0 < sep.length := List.length_pos.mpr hsep
  simp only [List.length_drop]
  omega

/-- The blank-line sequence separating headers from body. -/
def crlfcrlf : List Char := ['\r', '\n', '\r', '\n']

/-- `\s` of the bytes regex: `[ \t\n\r\f\v]`. -/
def isPyWS (c : Char) : Bool :=
  c = ' ' || c = '\t' || c = '\n' || c = '\r' || c = '\x0b' || c = '\x0c'

/-- Digit run to a natural number. -/
def digitsToNat (ds : List Char) : Nat :=
  ds.foldl (fun a c => a * 10 + (c.toNat - 48)) 0

/-- One attempted match of `(?i)Content-Length:\s*(\d+)` at a fixed
position: case-insensitive literal prefix, any run of whitespace (which, as
in the regex, may cross line ends), then a non-empty digit run. -/
def matchCLAt (xs : List Char) : Option Nat :=
  let pref := "content-length:".data
  if (xs.take pref.length).map Char.toLower = pref then
    let rest := (xs.drop pref.length).dropWhile isPyWS
    let digits := rest.takeWhile Char.isDigit
    if digits = [] then none else some (digitsToNat digits)
  else none

/-- Left-to-right scan of `REQ_RE_LEN.search`: with `re.MULTILINE`, `^`
anchors the attempt to the buffer start and to each position following a
newline; the first position where the whole pattern matches wins. -/
def contentLengthScan : Bool → List Char → Option Nat
  | _, [] => none
  | atStart, x :: xs =>
    if atStart then
      match matchCLAt (x :: xs) with
      | some n => some n
      | none => contentLengthScan (x = '\n') xs
    else contentLengthScan (x = '\n') xs

/-- `int(m.group(1)) if m else 0`: declared content length of the request,
`0` when the header is absent. -/
def contentLengthOf (data : List Char) : Nat :=
  (contentLengthScan true data).getD 0

/-- `await reader.read(n)` on a connection whose pending deliveries are
`chunks`: returns up to `n` bytes from the next delivery (asyncio returns as
soon as any data is buffered, never waiting to fill `n`); at EOF returns the
empty string. Also returns the deliveries still pending. -/
def readUpTo (n : Nat) : List (List Char) → List Char × List (List Char)
  | [] => ([], [])
  | c :: cs => if c.length ≤ n then (c, cs) else (c.take n, c.drop n :: cs)

/-- Body completion (`remaining = content_length - len(body_sofar); if
remaining > 0: body_sofar += await reader.read(remaining)`): at most ONE
additional read, requesting the shortfall. -/
def completeBody (bodySofar : List Char) (cl : Nat)
    (chunks : List (List Char)) : List Char :=
  if bodySofar.length < cl then
    bodySofar ++ (readUpTo (cl - bodySofar.length) chunks).1
  else bodySofar

/-- JSON whitespace. -/
def skipWs (s : List Char) : List Char :=
  s.dropWhile fun c => c = ' ' || c = '\t' || c = '\n' || c = '\r'

/-- Characters of a JSON string up to the closing quote (escape sequences
are not modelled: a backslash makes the parse fail). -/
def parseStr : List Char → Option (String × List Char)
  | [] => none
  | c :: rest =>
    if c = '"' then some ("", rest)
    else if c = '\\' then none
    else (parseStr rest).map fun (s, r) => (⟨c :: s.data⟩, r)

/-- A non-empty digit run and the rest. -/
def parseDigits (s : List Char) : Option (List Char × List Char) :=
  let ds := s.takeWhile Char.isDigit
  if ds = [] then none else some (ds, s.drop ds.length)

/-- JSON number: optional minus, integer digits, optional fraction,
optional exponent, as an exact rational. -/
def parseNum (s : List Char) : Option (ℚ × List Char) :=
  let (neg, s1) := match s with
    | '-' :: r => (true, r)
    | _ => (false, s)
  match parseDigits s1 with
  | none => none
  | some (ds, s2) =>
    let ipart : ℚ := (digitsToNat ds : ℚ)
    let (q1, s3) : ℚ × List Char := match s2 with
      | '.' :: r =>
        match parseDigits r with
        | some (fs, r2) =>
          (ipart + (digitsToNat fs : ℚ) / ((10 : ℚ) ^ fs.length), r2)
        | none => (ipart, s2)
      | _ => (ipart, s2)
    match s3 with
    | '.' :: _ => none
    | 'e' :: r | 'E' :: r =>
      let (eneg, r1) := match r with
        | '-' :: r' => (true, r')
        | '+' :: r' => (false, r')
        | _ => (false, r)
      match parseDigits r1 with
      | none => none
      | some (es, r2) =>
        let e := digitsToNat es
        let q2 := if eneg then q1 / (10 : ℚ) ^ e else q1 * (10 : ℚ) ^ e
        some (if neg then -q2 else q2, r2)
    | _ => some (if neg then -q1 else q1, s3)

mutual

/-- Fuel-indexed recursive-descent parser for one JSON value, returning the
value and the unconsumed input. -/
def parseVal : Nat → List Char → Option (Json × List Char)
  | 0, _ => none
  | fuel + 1, s =>
    match skipWs s with
    | 'n' :: 'u' :: 'l' :: 'l' :: rest => some (.null, rest)
    | 't' :: 'r' :: 'u' :: 'e' :: rest => some (.bool true, rest)
    | 'f' :: 'a' :: 'l' :: 's' :: 'e' :: rest => some (.bool false, rest)
    | '"' :: rest => (parseStr rest).map fun (s, r) => (.str s, r)
    | '[' :: rest =>
      (match skipWs rest with
       | ']' :: r => some (.arrNil, r)
       | _ => parseArrItems fuel rest)
    | '{' :: rest =>
      (match skipWs rest with
       | '}' :: r => some (.objNil, r)
       | _ => parseObjItems fuel rest)
    | s' => (parseNum s').map fun (q, r) => (.num q, r)

/-- Array elements after `[` (at least one), separated by commas. -/
def parseArrItems : Nat → List Char → Option (Json × List Char)
  | 0, _ => none
  | fuel + 1, s =>
    match parseVal fuel s with
    | none => none
    | some (v, r) =>
      match skipWs r with
      | ',' :: r2 =>
        (parseArrItems fuel r2).map fun (tl, r3) => (.arrCons v tl, r3)
      | ']' :: r2 => some (.arrCons v .arrNil, r2)
      | _ => none

/-- Object members after `{` (at least one): `"key": value` pairs. -/
def parseObjItems : Nat → List Char → Option (Json × List Char)
  | 0, _ => none
  | fuel + 1, s =>
    match skipWs s with
    | '"' :: rest =>
      match parseStr rest with
      | none => none
      | some (k, r) =>
        match skipWs r with
        | ':' :: r2 =>
          match parseVal fuel r2 with
          | none => none
          | some (v, r3) =>
            match skipWs r3 with
            | ',' :: r4 =>
              (parseObjItems fuel r4).map fun (tl, r5) => (.objCons k v tl, r5)
            | '}' :: r4 => some (.objCons k v .objNil, r4)
            | _ => none
        | _ => none
    | _ => none

end

/-- `orjson.loads`: parse one complete JSON document; trailing whitespace is
allowed, any other trailing bytes are an error. -/
def orjson_loads (s : List Char) : Option Json :=
  match parseVal (2 * s.length + 2) s with
  | some (v, rest) => if skipWs rest = [] then some v else none
  | none => none

/-- Python `float(x)` on a decoded JSON value: numbers pass through, bools
become 0/1, numeric strings are parsed (non-numeric strings raise
`ValueError`); `None`, lists and dicts raise `TypeError`. `inf`/`nan`
spellings are not modelled. -/
def pyFloat : Json → Option ℚ
  | .num q => some q
  | .bool b => some (if b then 1 else 0)
  | .str s =>
    let t := s.data.dropWhile isPyWS
    let (neg, t1) : Bool × List Char := match t with
      | '-' :: r => (true, r)
      | '+' :: r => (false, r)
      | _ => (false, t)
    match parseNum (if neg then '-' :: t1 else t1) with
    | some (q, rest) => if rest.dropWhile isPyWS = [] then some q else none
    | none => none
  | _ => none

/-- One HTTP response of the service: the two fixed error responses, or a
200 whose JSON body carries the four reported aggregates. -/
inductive Resp where
  | ok (totalRequests : Int) (uniqueUsers : Nat) (sum avg : ℚ) : Resp
  | notFound : Resp
  | internalError : Resp
deriving DecidableEq

/-- The fixed 404 response bytes (`HTTP_404` in the source). -/
def HTTP_404 : String :=
  "HTTP/1.1 404 Not Found\r\nConnection: close\r\nContent-Length: 9\r\n\r\nNot Found"

/-- The fixed 500 response bytes (`HTTP_500` in the source). -/
def HTTP_500 : String :=
  "HTTP/1.1 500 Internal Server Error\r\nConnection: close\r\nContent-Length: 21\r\n\r\nInternal Server Error"

/-- Wire bytes of a response; the 200 body is assembled dynamically from the
aggregates (its float formatting is not modelled, hence `none`). -/
def renderResp : Resp → Option String
  | .notFound => some HTTP_404
  | .internalError => some HTTP_500
  | .ok _ _ _ _ => none

/-- Python `needle in hay` on bytes: substring containment. -/
def containsSeq (needle hay : List Char) : Bool :=
  (firstOccIdx needle hay).isSome

/-- Request-line marker tested by `b"GET /stats " in data_bin`. -/
def statsMarker : List Char := "GET /stats ".data

/-- Request-line marker tested by `b"POST /event " in data_bin`. -/
def eventMarker : List Char := "POST /event ".data

/-- Body of the stats response: `avg` is `sum/total` when `req_total.value`
is truthy (non-zero), else `0.0`. -/
def statsResp (st : AggState) : Resp :=
  .ok st.req_total (unique_count st.shards) st.req_sum
    (if st.req_total = 0 then 0 else st.req_sum / (st.req_total : ℚ))

/-- Body of the write response: built after the update with an unguarded
division, so `ZeroDivisionError` (reported as 500) if the counter cell just
wrapped to zero. -/
def respOf (st : AggState) : Resp :=
  if st.req_total = 0 then .internalError
  else .ok st.req_total (unique_count st.shards) st.req_sum
    (st.req_sum / (st.req_total : ℚ))

/-- The `POST /event` branch of `handle`: split headers from the partial
body at the blank line (`ValueError` unless exactly one occurrence), scan
for `Content-Length`, complete the body with at most one further read,
decode with `orjson`, add the user (`body.get("userId")`, `None` when
absent) to its shard, then add to the sum cell and increment the count
cell; any exception in the `try` is answered with the fixed 500. -/
def processEvent (st : AggState) (data : List Char)
    (chunks : List (List Char)) : AggState × Resp :=
  match splitTwo crlfcrlf data with
  | none => (st, .internalError)
  | some (_, bodySofar) =>
    let body := completeBody bodySofar (contentLengthOf data) chunks
    match orjson_loads body with
    | none => (st, .internalError)
    | some j =>
      if j.isDict then
        let uid := (lookupLast "userId" j).getD .null
        match add_unique_user uid st.shards with
        | none => (st, .internalError)
        | some sh' =>
          let st1 : AggState := { st with shards := sh' }
          match pyFloat ((lookupLast "value" j).getD (.num 0)) with
          | none => (st1, .internalError)
          | some v =>
            let st2 : AggState :=
              { st1 with req_sum := st1.req_sum + v,
                         req_total := int32wrap (st1.req_total + 1) }
            (st2, respOf st2)
      else (st, .internalError)

/-- One connection handled end-to-end: `data` is what the initial bounded
read returned, `chunks` the deliveries still pending on the connection.
Returns the state after the request and the response written back. -/
def handle (st : AggState) (data : List Char)
    (chunks : List (List Char)) : AggState × Resp :=
  if containsSeq statsMarker data then (st, statsResp st)
  else if containsSeq eventMarker data then processEvent st data chunks
  else (st, .notFound)

/-- States reachable from service start by any sequence of connections. -/
inductive Reachable : AggState → Prop where
  | init : Reachable initState
  | step (st : AggState) (data : List Char) (chunks : List (List Char)) :
      Reachable st → Reachable (handle st data chunks).1

/-- A well-formed write request carrying `{"userId":"x","value":1}`. -/
def eventReq : List Char :=
  "POST /event HTTP/1.1\r\n\r\n\x7b\"userId\":\"x\",\"value\":1\x7d".data

/-- The shard the stand-in hash assigns to the identifier `"x"`. -/
def shardX : Fin NUM_SHARDS := ⟨120, by decide⟩

/-- The shard the stand-in hash assigns to Python `None`. -/
def shardNull : Fin NUM_SHARDS := ⟨468, by decide⟩

/-- State after `n` repetitions of the valid write `eventReq`. -/
def stateAfter : Nat → AggState
  | 0 => initState
  | n + 1 => (handle (stateAfter n) eventReq []).1

/-- The atomic steps a successful write performs on the shared state, at the
granularity of the handler's suspension points: the locked shard insertion,
and the two counter updates (which share one step — no `await` separates
them, so the cooperative scheduler cannot interleave inside them). -/
inductive WAct where
  | addU (u : Json) (i : Fin NUM_SHARDS) : WAct
  | record (v : ℚ) : WAct

/-- Effect of one atomic step on the shared state. -/
def applyAct (st : AggState) : WAct → AggState
  | .addU u i => { st with shards := Function.update st.shards i (insert u (st.shards i)) }
  | .record v =>
    { st with req_sum := st.req_sum + v,
              req_total := int32wrap (st.req_total + 1) }

/-- Run an arbitrary interleaving (any list) of atomic steps. -/
def execActs (st : AggState) (acts : List WAct) : AggState :=
  acts.foldl applyAct st

/-- Is this step a counter update? -/
def isRecord : WAct → Bool
  | .record _ => true
  | _ => false

/-- Number of counter-update steps in an interleaving: the number of writes
that were successfully decoded and applied. -/
def countRecords (acts : List WAct) : Nat :=
  (acts.filter isRecord).length

/-- Sum of the values recorded by an interleaving. -/
def sumRecords (acts : List WAct) : ℚ :=
  (acts.map fun a => match a with | .record v => v | _ => 0).sum

/-- A stats request. -/
def statsReq : List Char := "GET /stats HTTP/1.1\r\n\r\n".data

/-- A request matching neither route marker. -/
def unknownReq : List Char := "DELETE /x HTTP/1.1\r\n\r\n".data

/-- A write request whose initial read ends before the header terminator. -/
def noTerminatorReq : List Char := "POST /event HTTP/1.1\r\nContent-Length: 3".data

/-- A write request whose body is a JSON object with a non-numeric `value`
field (valid JSON, invalid Event). -/
def badValueReq : List Char :=
  "POST /event HTTP/1.1\r\n\r\n\x7b\"userId\":\"x\",\"value\":\"bad\"\x7d".data

/-- A write request whose body lacks the `userId` field. -/
def missingUserReq : List Char := "POST /event HTTP/1.1\r\n\r\n\x7b\"value\":3\x7d".data

/-- A write request whose body is not JSON at all. -/
def notJsonReq : List Char := "POST /event HTTP/1.1\r\n\r\nnotjson".data

/-- A write request whose 25-byte body is entirely outstanding after the
initial read. -/
def splitBodyReq : List Char :=
  "POST /event HTTP/1.1\r\nContent-Length: 25\r\n\r\n".data

/-- First delivery of the outstanding body (13 of 25 bytes). -/
def splitChunk1 : List Char := "\x7b\"userId\":\"a\"".data

/-- Second delivery of the outstanding body (the remaining 12 bytes). -/
def splitChunk2 : List Char := ",\"value\":10\x7d".data

/-! ## Helper lemmas -/

theorem int32wrap_range (x : Int) :
    -2 ^ 31 ≤ int32wrap x ∧ int32wrap x < 2 ^ 31 := by
  unfold int32wrap
  omega

theorem int32wrap_eq_self {x : Int} (h1 : -2 ^ 31 ≤ x) (h2 : x < 2 ^ 31) :
    int32wrap x = x := by
  unfold int32wrap
  omega

theorem int32wrap_int32wrap_add (x y : Int) :
    int32wrap (int32wrap x + y) = int32wrap (x + y) := by
  unfold int32wrap
  omega

theorem add_unique_user_eq_some {u : Json} {sh sh' : Fin NUM_SHARDS → Finset Json}
    (h : add_unique_user u sh = some sh') :
    ∃ i, shard_index u = some i ∧ sh' = Function.update sh i (insert u (sh i)) := by
  unfold add_unique_user at h
  cases hi : shard_index u with
  | none => rw [hi] at h; simp at h
  | some i =>
    rw [hi] at h
    simp only [Option.map_some'] at h
    exact ⟨i, rfl, (Option.some.inj h).symm⟩

/-- Exhaustive outcomes of the `POST /event` branch: (1) an exception
before any mutation; (2) an exception after the shard insertion but before
the counter updates (the `float(...)` conversion raising); (3) the full
update, answered by `respOf` (a 500 exactly when the count cell wrapped to
zero and the response's division raised). -/
theorem processEvent_cases (st : AggState) (data : List Char)
    (chunks : List (List Char)) :
    processEvent st data chunks = (st, Resp.internalError) ∨
    (∃ u i, shard_index u = some i ∧
      processEvent st data chunks =
        ({ st with shards := Function.update st.shards i (insert u (st.shards i)) },
         Resp.internalError)) ∨
    (∃ u i v, shard_index u = some i ∧
      processEvent st data chunks =
        (⟨int32wrap (st.req_total + 1), st.req_sum + v,
          Function.update st.shards i (insert u (st.shards i))⟩,
         respOf ⟨int32wrap (st.req_total + 1), st.req_sum + v,
           Function.update st.shards i (insert u (st.shards i))⟩)) := by
  unfold processEvent
  split
  · exact Or.inl rfl
  · dsimp only
    split
    · exact Or.inl rfl
    · split
      · split
        · exact Or.inl rfl
        · rename_i j hdict sh' hadd
          obtain ⟨i, hi, hsh'⟩ := add_unique_user_eq_some hadd
          split
          · subst hsh'
            exact Or.inr (Or.inl ⟨_, i, hi, rfl⟩)
          · rename_i v hv
            subst hsh'
            exact Or.inr (Or.inr ⟨_, i, v, hi, rfl⟩)
      · exact Or.inl rfl

/-- The stats response is always a 200. -/
theorem statsResp_ne_internalError (st : AggState) :
    statsResp st ≠ Resp.internalError := by
  unfold statsResp
  intro h
  cases h

/-- `respOf` inversion: a 200 write response reports the just-updated
aggregates, with `avg = sum / total` and a non-zero total. -/
theorem respOf_eq_ok {st : AggState} {t : Int} {uu : Nat} {s a : ℚ}
    (h : respOf st = Resp.ok t uu s a) :
    t = st.req_total ∧ uu = unique_count st.shards ∧ s = st.req_sum ∧
      a = st.req_sum / (st.req_total : ℚ) ∧ st.req_total ≠ 0 := by
  unfold respOf at h
  by_cases h0 : st.req_total = 0
  · rw [if_pos h0] at h
    cases h
  · rw [if_neg h0] at h
    cases h
    exact ⟨rfl, rfl, rfl, rfl, h0⟩

/-- `respOf` is a 500 exactly when the count cell holds zero. -/
theorem respOf_eq_internalError {st : AggState}
    (h : respOf st = Resp.internalError) : st.req_total = 0 := by
  unfold respOf at h
  by_cases h0 : st.req_total = 0
  · exact h0
  · rw [if_neg h0] at h
    cases h

/-- The handler either leaves the shard array unchanged or inserts exactly
one identifier into the shard its hash selects. -/
theorem handle_shards (st : AggState) (data : List Char)
    (chunks : List (List Char)) :
    (handle st data chunks).1.shards = st.shards ∨
    ∃ u i, shard_index u = some i ∧
      (handle st data chunks).1.shards =
        Function.update st.shards i (insert u (st.shards i)) := by
  unfold handle
  split
  · exact Or.inl rfl
  · split
    · rcases processEvent_cases st data chunks with h | ⟨u, i, hi, h⟩ | ⟨u, i, v, hi, h⟩
      · rw [h]
        exact Or.inl rfl
      · rw [h]
        exact Or.inr ⟨u, i, hi, rfl⟩
      · rw [h]
        exact Or.inr ⟨u, i, hi, rfl⟩
    · exact Or.inl rfl

/-- Every identifier in every reachable shard array sits in the shard its
hash selects. -/
theorem reachable_mem_shard_index {st : AggState} (h : Reachable st) :
    ∀ u i, u ∈ st.shards i → shard_index u = some i := by
  induction h with
  | init =>
    intro u i hu
    simp [initState] at hu
  | step st data chunks _ ih =>
    intro u i hu
    rcases handle_shards st data chunks with hsame | ⟨u', i', hi', hupd⟩
    · rw [hsame] at hu
      exact ih u i hu
    · rw [hupd] at hu
      by_cases hii : i = i'
      · subst hii
        rw [Function.update_same] at hu
        rcases Finset.mem_insert.mp hu with rfl | hmem
        · exact hi'
        · exact ih u i hmem
      · rw [Function.update_noteq hii] at hu
        exact ih u i hu

/-- The handler applied to the fixed valid write `eventReq` always wraps
the count cell forward by one. -/
theorem handle_eventReq_req_total (st : AggState) :
    ((handle st eventReq []).1).req_total = int32wrap (st.req_total + 1) := rfl

/-- Closed form of the count cell along the chain of valid writes. -/
theorem stateAfter_req_total (n : Nat) :
    (stateAfter n).req_total = int32wrap (n : Int) := by
  induction n with
  | zero =>
    show (0 : Int) = int32wrap 0
    unfold int32wrap
    decide
  | succ n ih =>
    show ((handle (stateAfter n) eventReq []).1).req_total = _
    rw [handle_eventReq_req_total, ih, int32wrap_int32wrap_add]
    push_cast
    ring_nf

/-- Every state along the chain of valid writes is reachable. -/
theorem reachable_stateAfter (n : Nat) : Reachable (stateAfter n) := by
  induction n with
  | zero => exact Reachable.init
  | succ n ih => exact Reachable.step _ eventReq [] ih

/-- For a non-empty separator the occurrence count is zero exactly when no
occurrence exists. -/
theorem countOcc_eq_zero_iff (sep xs : List Char) (hsep : sep ≠ []) :
    countOcc sep xs = 0 ↔ firstOccIdx sep xs = none := by
  rw [countOcc]
  rw [dif_neg hsep]
  cases h : firstOccIdx sep xs with
  | none => simp
  | some i => simp

/-- Python's two-way unpack of `split` succeeds exactly when the buffer
contains the separator exactly once (non-overlapping count). -/
theorem splitTwo_isSome_iff (sep xs : List Char) (hsep : sep ≠ []) :
    (splitTwo sep xs).isSome = true ↔ countOcc sep xs = 1 := by
  rw [countOcc, dif_neg hsep]
  unfold splitTwo
  cases h : firstOccIdx sep xs with
  | none => simp [h]
  | some i =>
    cases h2 : firstOccIdx sep (xs.drop (i + sep.length)) with
    | none =>
      have h0 := (countOcc_eq_zero_iff sep (xs.drop (i + sep.length)) hsep).mpr h2
      simp [h, h2, h0]
    | some i2 =>
      have h0 : countOcc sep (xs.drop (i + sep.length)) ≠ 0 := by
        intro hc
        rw [countOcc_eq_zero_iff sep (xs.drop (i + sep.length)) hsep] at hc
        rw [hc] at h2
        cases h2
      simp only [h, h2]
      constructor
      · intro hf
        simp at hf
      · intro hc
        exact absurd (by omega : countOcc sep (xs.drop (i + sep.length)) = 0) h0

/-- A single read never returns more than requested. -/
theorem readUpTo_length_le (n : Nat) (chunks : List (List Char)) :
    (readUpTo n chunks).1.length ≤ n := by
  cases chunks with
  | nil => simp [readUpTo]
  | cons c cs =>
    by_cases h : c.length ≤ n
    · simp [readUpTo, h]
    · simp only [readUpTo, if_neg h, List.length_take]
      omega

/-- The count and sum cells after an arbitrary interleaving of atomic
steps, starting from a count value already in the 32-bit range. -/
theorem execActs_counters (acts : List WAct) :
    ∀ st : AggState, -2 ^ 31 ≤ st.req_total → st.req_total < 2 ^ 31 →
      (execActs st acts).req_total =
        int32wrap (st.req_total + (countRecords acts : Int)) ∧
      (execActs st acts).req_sum = st.req_sum + sumRecords acts := by
  induction acts with
  | nil =>
    intro st h1 h2
    constructor
    · show st.req_total = _
      rw [show st.req_total + ((countRecords [] : Nat) : Int) = st.req_total by
            simp [countRecords]]
      exact (int32wrap_eq_self h1 h2).symm
    · show st.req_sum = _
      simp [sumRecords]
  | cons a acts ih =>
    intro st h1 h2
    cases a with
    | addU u i =>
      have hstep : execActs st (WAct.addU u i :: acts) =
          execActs (applyAct st (WAct.addU u i)) acts := rfl
      rw [hstep]
      have := ih (applyAct st (WAct.addU u i)) h1 h2
      simpa [applyAct, countRecords, isRecord, sumRecords] using this
    | record v =>
      have hstep : execActs st (WAct.record v :: acts) =
          execActs (applyAct st (WAct.record v)) acts := rfl
      rw [hstep]
      have hr := int32wrap_range (st.req_total + 1)
      have := ih (applyAct st (WAct.record v)) hr.1 hr.2
      rcases this with ⟨ht, hs⟩
      constructor
      · rw [ht]
        show int32wrap (int32wrap (st.req_total + 1) + _) = _
        rw [int32wrap_int32wrap_add]
        have hc : countRecords (WAct.record v :: acts) = countRecords acts + 1 := by
          simp [countRecords, isRecord]
        rw [hc]
        push_cast
        ring_nf
      · rw [hs]
        show st.req_sum + v + sumRecords acts = _
        have hsum : sumRecords (WAct.record v :: acts) = v + sumRecords acts := by
          simp [sumRecords]
        rw [hsum]
        ring

/-- `readUpTo` on a non-empty delivery queue, unfolded. -/
theorem readUpTo_cons (n : Nat) (c : List Char) (cs : List (List Char)) :
    readUpTo n (c :: cs) =
      if c.length ≤ n then (c, cs) else (c.take n, c.drop n :: cs) := rfl

/-- When the stats marker misses and the event marker hits, the handler
runs the write branch. -/
theorem handle_event_route {data : List Char} (st : AggState)
    (chunks : List (List Char))
    (hs : containsSeq statsMarker data = false)
    (he : containsSeq eventMarker data = true) :
    handle st data chunks = processEvent st data chunks := by
  unfold handle
  rw [hs, he]
  simp

/-- No shard holds any member at service start. -/
theorem unique_count_init : unique_count initState.shards = 0 := by
  simp [unique_count, initState]

/-- Replacing one shard changes the distinct count by the change in that
shard's size. -/
theorem unique_count_update (sh : Fin NUM_SHARDS → Finset Json)
    (i : Fin NUM_SHARDS) (s' : Finset Json) :
    unique_count (Function.update sh i s') + (sh i).card =
      unique_count sh + s'.card := by
  unfold unique_count
  rw [Finset.sum_congr rfl fun j _ =>
    (by
      by_cases hj : j = i
      · subst hj; simp
      · simp [Function.update_noteq hj] :
      (Function.update sh i s' j).card =
        Function.update (fun k => (sh k).card) i s'.card j)]
  rw [Finset.sum_update_of_mem (Finset.mem_univ i)]
  rw [Finset.sum_eq_sum_diff_singleton_add (Finset.mem_univ i)
    (fun k => (sh k).card)]
  ring

/-! ## Claim theorems -/

/-- C7: `add_unique_user` is idempotent: the first insertion of an
identifier raises `unique_count` by exactly one, and inserting the same
identifier again returns the same shard array, leaving the distinct count
unchanged. -/
theorem addUser_first_inc_then_idem (u : Json) (i : Fin NUM_SHARDS)
    (sh sh' : Fin NUM_SHARDS → Finset Json)
    (hi : shard_index u = some i) (hadd : add_unique_user u sh = some sh') :
    sh' = Function.update sh i (insert u (sh i)) ∧
    ((∀ j, u ∉ sh j) → unique_count sh' = unique_count sh + 1) ∧
    add_unique_user u sh' = some sh' := by
  obtain ⟨i', hi', he⟩ := add_unique_user_eq_some hadd
  rw [hi] at hi'
  have hii : i = i' := Option.some.inj hi'
  subst hii
  subst he
  refine ⟨rfl, ?_, ?_⟩
  · intro hnot
    have hcard : (insert u (sh i)).card = (sh i).card + 1 :=
      Finset.card_insert_of_not_mem (hnot i)
    have hupd := unique_count_update sh i (insert u (sh i))
    omega
  · unfold add_unique_user
    rw [hi]
    simp only [Option.map_some']
    congr 1
    have h1 : Function.update sh i (insert u (sh i)) i = insert u (sh i) :=
      Function.update_same i (insert u (sh i)) sh
    rw [h1, Finset.insert_idem, Function.update_idem]

/-- Witness for C7 at the identifier `"x"` over the empty shard array. -/
theorem addUser_first_inc_then_idem_witness :
    unique_count (Function.update initState.shards shardX
      (insert (Json.str "x") (initState.shards shardX))) =
      unique_count initState.shards + 1 ∧
    add_unique_user (Json.str "x")
      (Function.update initState.shards shardX
        (insert (Json.str "x") (initState.shards shardX))) =
      some (Function.update initState.shards shardX
        (insert (Json.str "x") (initState.shards shardX))) := by
  have hi : shard_index (Json.str "x") = some shardX := by decide
  have hadd : add_unique_user (Json.str "x") initState.shards =
      some (Function.update initState.shards shardX
        (insert (Json.str "x") (initState.shards shardX))) := by
    unfold add_unique_user
    rw [hi]
    rfl
  have h := addUser_first_inc_then_idem (Json.str "x") shardX initState.shards
    (Function.update initState.shards shardX
      (insert (Json.str "x") (initState.shards shardX))) hi hadd
  exact ⟨h.2.1 fun j => by simp [initState], h.2.2⟩

/-- C8: in every reachable state each identifier is in at most one shard,
the reported distinct count is the sum of the shard sizes, and shard
assignment is a deterministic function of the identifier. -/
theorem shard_invariant (st : AggState) (h : Reachable st) (u : Json)
    (i j : Fin NUM_SHARDS) :
    (u ∈ st.shards i → u ∈ st.shards j → i = j) ∧
    unique_count st.shards = ∑ k : Fin NUM_SHARDS, (st.shards k).card ∧
    (shard_index u = some i → shard_index u = some j → i = j) := by
  refine ⟨?_, rfl, ?_⟩
  · intro hui huj
    have h1 := reachable_mem_shard_index h u i hui
    have h2 := reachable_mem_shard_index h u j huj
    rw [h1] at h2
    exact Option.some.inj h2
  · intro h1 h2
    rw [h1] at h2
    exact Option.some.inj h2

/-- Witness for C8 at the state reached by one valid write. -/
theorem shard_invariant_witness :
    (Json.str "x" ∈ (stateAfter 1).shards shardX →
      Json.str "x" ∈ (stateAfter 1).shards shardX → shardX = shardX) ∧
    unique_count (stateAfter 1).shards =
      ∑ k : Fin NUM_SHARDS, ((stateAfter 1).shards k).card ∧
    (shard_index (Json.str "x") = some shardX →
      shard_index (Json.str "x") = some shardX → shardX = shardX) :=
  shard_invariant (stateAfter 1) (reachable_stateAfter 1) (Json.str "x")
    shardX shardX

/-- C10: the write branch proceeds past the header/body split exactly when
the buffer contains the blank-line sequence once (non-overlapping count);
with zero or several occurrences the two-way unpack raises and the handler
answers the fixed 500 with the state untouched. -/
theorem event_requires_single_blank_line (st : AggState) (data : List Char)
    (chunks : List (List Char)) :
    ((splitTwo crlfcrlf data).isSome = true ↔ countOcc crlfcrlf data = 1) ∧
    (containsSeq statsMarker data = false →
      containsSeq eventMarker data = true →
      countOcc crlfcrlf data ≠ 1 →
      handle st data chunks = (st, Resp.internalError)) := by
  have hiff := splitTwo_isSome_iff crlfcrlf data (by decide)
  refine ⟨hiff, ?_⟩
  intro h1 h2 hc
  have hnone : splitTwo crlfcrlf data = none := by
    cases hs : splitTwo crlfcrlf data with
    | none => rfl
    | some p => exact absurd (hiff.mp (by rw [hs]; rfl)) hc
  rw [handle_event_route st chunks h1 h2]
  unfold processEvent
  rw [hnone]

/-- Witness for C10: a first read that ends before the header terminator. -/
theorem event_requires_single_blank_line_witness :
    handle initState noTerminatorReq [] = (initState, Resp.internalError) := by
  have hc : countOcc crlfcrlf noTerminatorReq ≠ 1 := by
    intro h
    have hs := (splitTwo_isSome_iff crlfcrlf noTerminatorReq (by decide)).mpr h
    rw [(by decide : splitTwo crlfcrlf noTerminatorReq = none)] at hs
    cases hs
  exact (event_requires_single_blank_line initState noTerminatorReq []).2
    (by decide) (by decide) hc

/-- C9: a buffer matching neither route marker is answered by the fixed 404
with the state untouched; the fixed 404 and 500 byte strings carry the
bodies `Not Found` (9 bytes) and `Internal Server Error` (21 bytes), and
the `Content-Length` each declares matches its body length. -/
theorem fixed_error_responses (st : AggState) (data : List Char)
    (chunks : List (List Char)) :
    (containsSeq statsMarker data = false →
      containsSeq eventMarker data = false →
      handle st data chunks = (st, Resp.notFound)) ∧
    renderResp Resp.notFound = some HTTP_404 ∧
    splitTwo crlfcrlf HTTP_404.data =
      some ("HTTP/1.1 404 Not Found\r\nConnection: close\r\nContent-Length: 9".data,
            "Not Found".data) ∧
    "Not Found".data.length = 9 ∧
    contentLengthOf HTTP_404.data = 9 ∧
    renderResp Resp.internalError = some HTTP_500 ∧
    splitTwo crlfcrlf HTTP_500.data =
      some ("HTTP/1.1 500 Internal Server Error\r\nConnection: close\r\nContent-Length: 21".data,
            "Internal Server Error".data) ∧
    "Internal Server Error".data.length = 21 ∧
    contentLengthOf HTTP_500.data = 21 := by
  refine ⟨?_, by decide, by decide, by decide, by decide, by decide,
    by decide, by decide, by decide⟩
  intro h1 h2
  unfold handle
  rw [h1, h2]
  simp

/-- Witness for C9 on a request with an unrecognized method and path. -/
theorem fixed_error_responses_witness :
    handle initState unknownReq [] = (initState, Resp.notFound) :=
  (fixed_error_responses initState unknownReq []).1 (by decide) (by decide)

/-- C6: every 200 response of the handler reports `avg = sum / total` when
the reported total is positive and `avg = 0` when it is zero; a stats read
of the start state reports all four aggregates as zero without dividing. -/
theorem avg_of_responses (st : AggState) (data : List Char)
    (chunks : List (List Char)) (t : Int) (uu : Nat) (s a : ℚ) :
    ((handle st data chunks).2 = Resp.ok t uu s a →
      (0 < t → a = s / (t : ℚ)) ∧ (t = 0 → a = 0)) ∧
    (containsSeq statsMarker data = true →
      handle initState data chunks = (initState, Resp.ok 0 0 0 0)) := by
  constructor
  · intro hok
    unfold handle at hok
    by_cases h1 : containsSeq statsMarker data = true
    · rw [if_pos h1] at hok
      dsimp only at hok
      unfold statsResp at hok
      injection hok with e1 e2 e3 e4
      subst e1
      subst e3
      subst e4
      constructor
      · intro hpos
        rw [if_neg (by omega)]
      · intro h0
        rw [if_pos h0]
    · rw [if_neg h1] at hok
      by_cases h2 : containsSeq eventMarker data = true
      · rw [if_pos h2] at hok
        rcases processEvent_cases st data chunks with hc | ⟨u, i, hi, hc⟩ |
          ⟨u, i, v, hi, hc⟩
        · rw [hc] at hok
          cases hok
        · rw [hc] at hok
          cases hok
        · rw [hc] at hok
          dsimp only at hok
          obtain ⟨e1, e2, e3, e4, hne⟩ := respOf_eq_ok hok
          constructor
          · intro hpos
            rw [e4, e1, e3]
          · intro h0
            rw [e1] at h0
            exact absurd h0 hne
      · rw [if_neg h2] at hok
        cases hok
  · intro hstats
    unfold handle
    rw [hstats]
    have hzero : statsResp initState = Resp.ok 0 0 0 0 := by
      unfold statsResp
      rw [unique_count_init]
      norm_num [initState]
    simp [hzero]

/-- Witness for C6: the stats read of the start state. -/
theorem avg_of_responses_witness :
    handle initState statsReq [] = (initState, Resp.ok 0 0 0 0) :=
  (avg_of_responses initState statsReq [] 0 0 0 0).2 (by decide)

/-- C1 (amended): whenever the handler answers the fixed 500, the counter
cells are unchanged — unless the increment itself wrapped the count cell to
zero, making the response's division raise after the update — and the shard
array is either unchanged or extended by the one identifier the request
carried (the `float(value)` conversion raises only after
`add_unique_user` has completed). -/
theorem write_failure_effects (st : AggState) (data : List Char)
    (chunks : List (List Char))
    (h : (handle st data chunks).2 = Resp.internalError) :
    (handle st data chunks).1 = st ∨
    ∃ u i, shard_index u = some i ∧
      (handle st data chunks).1.shards =
        Function.update st.shards i (insert u (st.shards i)) ∧
      (((handle st data chunks).1.req_total = st.req_total ∧
        (handle st data chunks).1.req_sum = st.req_sum) ∨
       (handle st data chunks).1.req_total = 0) := by
  unfold handle at h ⊢
  by_cases h1 : containsSeq statsMarker data = true
  · rw [if_pos h1] at h
    dsimp only at h
    exact absurd h (statsResp_ne_internalError st)
  · rw [if_neg h1] at h ⊢
    by_cases h2 : containsSeq eventMarker data = true
    · rw [if_pos h2] at h ⊢
      rcases processEvent_cases st data chunks with hc | ⟨u, i, hi, hc⟩ |
        ⟨u, i, v, hi, hc⟩
      · rw [hc]
        exact Or.inl rfl
      · rw [hc]
        exact Or.inr ⟨u, i, hi, rfl, Or.inl ⟨rfl, rfl⟩⟩
      · rw [hc] at h ⊢
        dsimp only at h ⊢
        have h0 := respOf_eq_internalError h
        exact Or.inr ⟨u, i, hi, rfl, Or.inr h0⟩
    · rw [if_neg h2] at h
      cases h

/-- Witness for C1 (amended) on a write whose body is not JSON. -/
theorem write_failure_effects_witness :
    (handle initState notJsonReq []).1 = initState ∨
    ∃ u i, shard_index u = some i ∧
      (handle initState notJsonReq []).1.shards =
        Function.update initState.shards i (insert u (initState.shards i)) ∧
      (((handle initState notJsonReq []).1.req_total = initState.req_total ∧
        (handle initState notJsonReq []).1.req_sum = initState.req_sum) ∨
       (handle initState notJsonReq []).1.req_total = 0) :=
  write_failure_effects initState notJsonReq [] (by decide)

/-- Counterexample for C1 as stated: the body `{"userId":"x","value":"bad"}`
is valid JSON but not a valid Event (`float("bad")` raises), the handler
answers 500 — yet the identifier `"x"` HAS been added to its shard, so the
state is not left unchanged. -/
theorem write_failure_mutates_shard_cex :
    (handle initState badValueReq []).2 = Resp.internalError ∧
    Json.str "x" ∈ (handle initState badValueReq []).1.shards shardX ∧
    Json.str "x" ∉ initState.shards shardX :=
  ⟨by decide, by decide, by decide⟩

/-- C5 (amended): a write body that decodes as an object WITHOUT a
`userId` field is not an error: `body.get("userId")` yields Python `None`,
which is hashable, so `None` is added to its shard, the counters update,
and (unless the count cell wrapped to zero) the response is a 200; an
absent `value` field defaults to `0`. -/
theorem missing_userId_is_accepted (st : AggState)
    (data hdr bodySofar : List Char) (chunks : List (List Char))
    (j : Json) (v : ℚ)
    (hs : containsSeq statsMarker data = false)
    (he : containsSeq eventMarker data = true)
    (hsplit : splitTwo crlfcrlf data = some (hdr, bodySofar))
    (hparse : orjson_loads
      (completeBody bodySofar (contentLengthOf data) chunks) = some j)
    (hdict : j.isDict = true)
    (huid : lookupLast "userId" j = none)
    (hv : pyFloat ((lookupLast "value" j).getD (Json.num 0)) = some v)
    (hnz : int32wrap (st.req_total + 1) ≠ 0) :
    (handle st data chunks).1.req_total = int32wrap (st.req_total + 1) ∧
    (handle st data chunks).1.req_sum = st.req_sum + v ∧
    Json.null ∈ (handle st data chunks).1.shards shardNull ∧
    (handle st data chunks).2 ≠ Resp.internalError := by
  rw [handle_event_route st chunks hs he]
  unfold processEvent
  rw [hsplit]
  dsimp only
  rw [hparse]
  dsimp only
  rw [hdict]
  rw [if_pos rfl]
  rw [huid, Option.getD_none]
  have hadd : add_unique_user Json.null st.shards =
      some (Function.update st.shards shardNull
        (insert Json.null (st.shards shardNull))) := by
    unfold add_unique_user
    rw [(by decide : shard_index Json.null = some shardNull)]
    rfl
  rw [hadd]
  dsimp only
  rw [hv]
  dsimp only
  refine ⟨rfl, rfl, ?_, ?_⟩
  · rw [Function.update_same]
    exact Finset.mem_insert_self _ _
  · unfold respOf
    dsimp only
    rw [if_neg hnz]
    intro hcon
    cases hcon

set_option maxRecDepth 4096 in
/-- Witness for C5 (amended) on the body `{"value":3}` from the start
state. -/
theorem missing_userId_is_accepted_witness :
    (handle initState missingUserReq []).1.req_total =
      int32wrap (initState.req_total + 1) ∧
    (handle initState missingUserReq []).1.req_sum =
      initState.req_sum + 3 ∧
    Json.null ∈ (handle initState missingUserReq []).1.shards shardNull ∧
    (handle initState missingUserReq []).2 ≠ Resp.internalError :=
  missing_userId_is_accepted initState missingUserReq
    "POST /event HTTP/1.1".data "\x7b\"value\":3\x7d".data []
    (Json.objCons "value" (Json.num 3) Json.objNil) 3
    (by decide) (by decide) (by decide) (by decide) (by decide) (by decide)
    (by decide) (by decide)

set_option maxRecDepth 8192 in
/-- Counterexample for C5 as stated: the write without a `userId` field is
NOT answered 500 — the aggregates update (total becomes 1, sum 3) and
`None` now sits in a shard. -/
theorem missing_userId_cex :
    (handle initState missingUserReq []).2 ≠ Resp.internalError ∧
    (handle initState missingUserReq []).1.req_total = 1 ∧
    Json.null ∈ (handle initState missingUserReq []).1.shards shardNull :=
  ⟨by decide, by decide, by decide⟩

/-- C3 (amended): the decoder issues AT MOST ONE additional read,
requesting the shortfall: when the body is already complete no read
happens; when the next delivery covers the whole shortfall the body
completes to exactly the declared length; but the read never returns more
than the shortfall, and whatever it returns — even if short — is what is
passed on to JSON decoding. -/
theorem completeBody_single_read (bs : List Char) (cl : Nat)
    (c : List Char) (cs chunks : List (List Char)) :
    (cl ≤ bs.length → completeBody bs cl chunks = bs) ∧
    (bs.length < cl → cl ≤ bs.length + c.length →
      (completeBody bs cl (c :: cs)).length = cl) ∧
    (completeBody bs cl chunks).length ≤ max bs.length cl := by
  refine ⟨?_, ?_, ?_⟩
  · intro h
    unfold completeBody
    rw [if_neg (by omega)]
  · intro h1 h2
    unfold completeBody
    rw [if_pos h1, List.length_append]
    by_cases hc : c.length ≤ cl - bs.length
    · rw [readUpTo_cons, if_pos hc]
      dsimp only
      omega
    · rw [readUpTo_cons, if_neg hc]
      dsimp only
      rw [List.length_take]
      omega
  · unfold completeBody
    by_cases h : bs.length < cl
    · rw [if_pos h, List.length_append]
      have := readUpTo_length_le (cl - bs.length) chunks
      omega
    · rw [if_neg h]
      omega

/-- Witness for C3 (amended): a complete body is left alone; a shortfall
covered by the next delivery completes to the declared length. -/
theorem completeBody_single_read_witness :
    completeBody ['a'] 1 [] = ['a'] ∧
    (completeBody [] 2 [['x', 'y'], ['z']]).length = 2 :=
  ⟨(completeBody_single_read ['a'] 1 ['x'] [] []).1 (by decide),
   (completeBody_single_read [] 2 ['x', 'y'] [['z']] []).2.1
     (by decide) (by decide)⟩

/-- Counterexample for C3 as stated: with a declared length of 25 and the
25-byte body delivered in two reads of 13 and 12 bytes, the single
additional read returns only 13 bytes, the 13-byte body IS passed to JSON
decoding (where it fails), and the handler answers 500 — the decoder does
not block until the declared byte count is satisfied. -/
theorem split_delivery_fails_cex :
    contentLengthOf splitBodyReq = 25 ∧
    splitTwo crlfcrlf splitBodyReq =
      some ("POST /event HTTP/1.1\r\nContent-Length: 25".data, []) ∧
    completeBody [] 25 [splitChunk1, splitChunk2] = splitChunk1 ∧
    splitChunk1.length = 13 ∧
    (splitChunk1 ++ splitChunk2).length = 25 ∧
    handle initState splitBodyReq [splitChunk1, splitChunk2] =
      (initState, Resp.internalError) :=
  ⟨by decide, by decide, by decide, by decide, by decide, rfl⟩

/-- C2 (amended): under the cooperative scheduler no counter update is ever
lost to interleaving — after ANY interleaving of atomic steps the count
cell holds the 32-bit wrap of the number of applied writes (equal to that
number whenever it is below 2^31) and the sum cell holds the exact sum of
the recorded values; and every 200-answered write changes the state by
exactly its two atomic steps. -/
theorem no_lost_updates (acts : List WAct) (st : AggState)
    (data : List Char) (chunks : List (List Char))
    (hs : containsSeq statsMarker data = false)
    (he : containsSeq eventMarker data = true) :
    (execActs initState acts).req_total =
      int32wrap ((countRecords acts : Nat) : Int) ∧
    (((countRecords acts : Nat) : Int) < 2 ^ 31 →
      (execActs initState acts).req_total = ((countRecords acts : Nat) : Int)) ∧
    (execActs initState acts).req_sum = sumRecords acts ∧
    ((handle st data chunks).2 ≠ Resp.internalError →
      ∃ u i v, shard_index u = some i ∧
        (handle st data chunks).1 =
          execActs st [WAct.addU u i, WAct.record v]) := by
  obtain ⟨ht, hsum⟩ := execActs_counters acts initState
    (by norm_num [initState]) (by norm_num [initState])
  have h0 : initState.req_total = 0 := rfl
  refine ⟨?_, ?_, ?_, ?_⟩
  · rw [ht, h0, zero_add]
  · intro hlt
    rw [ht, h0, zero_add]
    exact int32wrap_eq_self
      (le_trans (by norm_num) (Int.ofNat_nonneg _)) hlt
  · rw [hsum]
    show (0 : ℚ) + sumRecords acts = sumRecords acts
    rw [zero_add]
  · intro hok
    rw [handle_event_route st chunks hs he] at hok ⊢
    rcases processEvent_cases st data chunks with hc | ⟨u, i, hi, hc⟩ |
      ⟨u, i, v, hi, hc⟩
    · rw [hc] at hok
      exact absurd rfl hok
    · rw [hc] at hok
      exact absurd rfl hok
    · rw [hc]
      exact ⟨u, i, v, hi, rfl⟩

/-- Witness for C2 (amended) on a three-step interleaving with two writes,
and on the fixed valid write request. -/
theorem no_lost_updates_witness :
    ((countRecords [WAct.record 1, WAct.addU (Json.str "x") shardX,
        WAct.record 2] : Nat) : Int) < 2 ^ 31 ∧
    (execActs initState [WAct.record 1, WAct.addU (Json.str "x") shardX,
        WAct.record 2]).req_total = 2 ∧
    (∃ u i v, shard_index u = some i ∧
      (handle initState eventReq []).1 =
        execActs initState [WAct.addU u i, WAct.record v]) := by
  have h := no_lost_updates
    [WAct.record 1, WAct.addU (Json.str "x") shardX, WAct.record 2]
    initState eventReq [] (by decide) (by decide)
  refine ⟨by decide, ?_, ?_⟩
  · have h2 := h.2.1 (by decide)
    rw [h2]
    decide
  · exact h.2.2.2 (by decide)

/-- Counterexample for C2 as stated: `eventReq` is a valid write (it is not
answered 500 from the start state), yet after a sequence of 2^31 such
writes the count cell does not equal the number of applied writes — it has
wrapped to -2^31. -/
theorem lost_to_wrap_cex :
    (handle initState eventReq []).2 ≠ Resp.internalError ∧
    (stateAfter (2 ^ 31)).req_total ≠ ((2 ^ 31 : Nat) : Int) := by
  constructor
  · decide
  · rw [stateAfter_req_total]
    decide

/-- C4 (amended): `req_total` is a C SIGNED 32-BIT cell (ctypes typecode
`"i"`), not uint64: along the chain of valid writes it equals the signed
32-bit wrap of the number of writes, which is exact only below 2^31. (The
sum cell is likewise a 32-bit C float, typecode `"f"`, not float64; its
rounding is outside this rational model.) -/
theorem counter_is_int32 (n : Nat) :
    (stateAfter n).req_total = int32wrap (n : Int) ∧
    ((n : Int) < 2 ^ 31 → (stateAfter n).req_total = (n : Int)) := by
  refine ⟨stateAfter_req_total n, fun h => ?_⟩
  rw [stateAfter_req_total]
  exact int32wrap_eq_self (le_trans (by norm_num) (Int.ofNat_nonneg _)) h

/-- Witness for C4 (amended) after three writes. -/
theorem counter_is_int32_witness :
    ((3 : Nat) : Int) < 2 ^ 31 ∧ (stateAfter 3).req_total = ((3 : Nat) : Int) :=
  ⟨by decide, (counter_is_int32 3).2 (by decide)⟩

/-- Counterexample for C4 as stated: the state after 2^31 successful writes
is reachable and its `totalRequests` cell is NEGATIVE — the counter wrapped
at 2^31, far below the claimed 2^64. -/
theorem counter_wraps_negative_cex :
    Reachable (stateAfter (2 ^ 31)) ∧ (stateAfter (2 ^ 31)).req_total < 0 := by
  refine ⟨reachable_stateAfter _, ?_⟩
  rw [stateAfter_req_total]
  decide
